import Mathlib

/-!
Shallow embedding of the BRT corridor simulation (Go repository `brt08`).

Conventions of the embedding:
* Go `time.Time` values are modelled as `Int` timestamps; the zero `time.Time`
  is the integer `0`.  `time.Duration` quantities are carried in milliseconds.
  `Sub(...).Minutes()` is modelled as the plain timestamp difference (the unit
  is a fixed positive scale factor and no claim depends on it).
* Go `float64` quantities (speeds, distances, multipliers) are modelled as `ℚ`;
  no verified claim hinges on floating-point rounding.
* Go heap pointers (`*Passenger`, `*Bus`, `*BusStop`) are modelled by value
  passing: an operation returns the updated records.  The `p == nil` guards of
  the source have no counterpart because a missing pointer is not
  representable.
* `math/rand` draws are modelled as explicit arguments (a `Float64` draw is a
  rational in `[0, 1)`).
-/

namespace BRT

/-- `backend/model/route_loader.go`: `BusType` — capacity and cost class of a bus. -/
structure BusType where
  id : Int
  name : String
  capacity : Int
  costPerKm : ℚ
  deriving DecidableEq

/-- `backend/model/passenger.go` (plus the `Direction` field used by
`BoardAtStop` and `Simulator.newPassenger`): a single trip request. -/
structure Passenger where
  id : Int
  routeID : Int
  startStopID : Int
  endStopID : Int
  direction : String
  arrivalStopTime : Int
  boardingTime : Option Int
  waitDuration : Option Int
  departureTime : Option Int
  arrivalDestTime : Option Int
  deriving DecidableEq

/-- `Passenger.MarkBoarded`: set boarding/departure time and the wait duration
(difference to the arrival time, floored at zero). -/
def Passenger.markBoarded (p : Passenger) (ts : Int) : Passenger :=
  let diff := ts - p.arrivalStopTime
  let diff := if diff < 0 then 0 else diff
  { p with boardingTime := some ts, departureTime := some ts, waitDuration := some diff }

/-- `Passenger.MarkArrived`: set arrival at destination. -/
def Passenger.markArrived (p : Passenger) (ts : Int) : Passenger :=
  { p with arrivalDestTime := some ts }

/-- `Passenger.IsOnboard`: boarded but not yet arrived at destination. -/
def Passenger.isOnboard (p : Passenger) : Bool :=
  p.boardingTime.isSome && p.arrivalDestTime.isNone

/-- `backend/model/route_loader.go`: `Bus` — an individual vehicle. -/
structure Bus where
  id : Int
  type : Option BusType
  routeID : Int
  currentStopID : Int
  direction : String
  passengersOnboard : Int
  isFull : Bool
  averageSpeedKmph : ℚ
  passengers : List Passenger
  totalBoarded : Int
  totalAlighted : Int
  deriving DecidableEq

/-- `Bus.RemainingCapacity`: how many more passengers can board (0 when the
bus has no type; never negative). -/
def Bus.remainingCapacity (b : Bus) : Int :=
  match b.type with
  | none => 0
  | some t =>
      let rem := t.capacity - b.passengersOnboard
      if rem < 0 then 0 else rem

/-- The recurring Go fragment
`bus.Type != nil && bus.PassengersOnboard >= bus.Type.Capacity`. -/
def busFull (t : Option BusType) (onboard : Int) : Bool :=
  match t with
  | none => false
  | some ty => decide (ty.capacity ≤ onboard)

/-- `model.BusStop` (file `part_000`): stop with two directional FIFO queues. -/
structure BusStop where
  id : Int
  name : String
  routeID : Int
  latitude : ℚ
  longitude : ℚ
  distanceToNext : ℚ
  cumulativeDist : ℚ
  outboundQueue : List Passenger
  inboundQueue : List Passenger
  totalArrivals : Int
  totalBoarded : Int
  totalDepartures : Int
  allowLayover : Bool
  deriving DecidableEq

/-- `BusStop.EnqueuePassenger`: stamp the arrival time if it is zero, bump the
arrival counter, and append to the queue selected by the passenger's own
direction when set (the caller's `dir` argument is the fallback); any
direction other than `"inbound"` goes to the outbound queue. -/
def BusStop.enqueuePassenger (s : BusStop) (p : Passenger) (dir : String) (now : Int) : BusStop :=
  let p := if p.arrivalStopTime = 0 then { p with arrivalStopTime := now } else p
  let s := { s with totalArrivals := s.totalArrivals + 1 }
  let dir := if p.direction ≠ "" then p.direction else dir
  if dir = "inbound" then
    { s with inboundQueue := s.inboundQueue ++ [p] }
  else
    { s with outboundQueue := s.outboundQueue ++ [p] }

/-- The eligibility test of the boarding loop in `BusStop.BoardAtStop`
(file `part_000`, line 68): route matches, origin is this stop, not yet
boarded, direction unset or equal to the bus direction. -/
def eligibleFor (rid : Int) (dir : String) (sid : Int) (p : Passenger) : Bool :=
  p.routeID == rid && p.startStopID == sid && p.boardingTime == none &&
    (p.direction == "" || p.direction == dir)

/-- The scanning loop of `BusStop.BoardAtStop`: one FIFO pass over the queue.
Returns (retained queue, boarded passengers in order).  `r` is the mutable
`remaining` counter of the source. -/
def boardScan (rid : Int) (dir : String) (sid : Int) (now : Int) :
    List Passenger → Int → List Passenger × List Passenger
  | [], _ => ([], [])
  | p :: rest, r =>
    if r ≤ 0 then
      let res := boardScan rid dir sid now rest r
      (p :: res.1, res.2)
    else if eligibleFor rid dir sid p then
      let res := boardScan rid dir sid now rest (r - 1)
      (res.1, p.markBoarded now :: res.2)
    else
      let res := boardScan rid dir sid now rest r
      (p :: res.1, res.2)

/-- `BusStop.BoardAtStop` (file `part_000`, lines 42–88): select the queue of
the bus direction; on an empty queue do nothing; on a full bus only (possibly)
raise `isFull`; otherwise run the FIFO scan, move boarded passengers into the
manifest, update all counters and the `isFull` flag.
Returns (updated stop, updated bus, boarded passengers). -/
def BusStop.boardAtStop (s : BusStop) (bus : Bus) (now : Int) :
    BusStop × Bus × List Passenger :=
  let inb := bus.direction == "inbound"
  let queue := if inb then s.inboundQueue else s.outboundQueue
  if queue.isEmpty then (s, bus, [])
  else
    let remaining := bus.remainingCapacity
    if remaining ≤ 0 then
      (s, { bus with isFull := if busFull bus.type bus.passengersOnboard then true else bus.isFull }, [])
    else
      let res := boardScan bus.routeID bus.direction s.id now queue remaining
      let newQueue := res.1
      let boarded := res.2
      let bus1 := { bus with
        passengers := bus.passengers ++ boarded,
        totalBoarded := bus.totalBoarded + boarded.length }
      let s1 :=
        if inb then
          { s with inboundQueue := newQueue,
                   totalBoarded := s.totalBoarded + boarded.length,
                   totalDepartures := s.totalDepartures + boarded.length }
        else
          { s with outboundQueue := newQueue,
                   totalBoarded := s.totalBoarded + boarded.length,
                   totalDepartures := s.totalDepartures + boarded.length }
      let onboard : Int := bus1.passengers.length
      let bus2 := { bus1 with passengersOnboard := onboard, isFull := busFull bus.type onboard }
      (s1, bus2, boarded)

/-- The removal loop of `Bus.AlightPassengersAtCurrentStop`: split the manifest
into (kept, alighted-and-marked) at the current stop. -/
def alightScan (cur : Int) (now : Int) : List Passenger → List Passenger × List Passenger
  | [] => ([], [])
  | p :: rest =>
    let res := alightScan cur now rest
    if p.endStopID == cur && p.isOnboard then
      (res.1, p.markArrived now :: res.2)
    else
      (p :: res.1, res.2)

/-- `Bus.AlightPassengersAtCurrentStop` (`route_loader.go` lines 219–241):
remove every onboard passenger whose destination equals the current stop,
marking their arrival; an empty manifest short-circuits with no change.
Returns (updated bus, alighted passengers). -/
def Bus.alightPassengersAtCurrentStop (b : Bus) (now : Int) : Bus × List Passenger :=
  if b.passengers.isEmpty then (b, [])
  else
    let res := alightScan b.currentStopID now b.passengers
    let keep := res.1
    let alighted := res.2
    let onboard : Int := keep.length
    ({ b with
        passengers := keep,
        totalAlighted := b.totalAlighted + alighted.length,
        passengersOnboard := onboard,
        isFull := busFull b.type onboard }, alighted)

/-- The terminal block of `sim/runner.go` (lines 456–470 for the outbound
terminus, mirrored for the inbound one): one more destination-matching
alighting pass at the terminal stop, the fixed 3-second terminal dwell, then
the direction flip (`"inbound"` after a forward traversal, `"outbound"` after
a reverse one).  Returns (bus after the flip, alighted, clock after dwell);
time is in milliseconds. -/
def terminalStep (forward : Bool) (b : Bus) (now : Int) : Bus × List Passenger × Int :=
  let res := b.alightPassengersAtCurrentStop now
  let newNow := now + 3000
  ({ res.1 with direction := if forward then "inbound" else "outbound" }, res.2, newNow)

/-- `computeDwell` from `sim/runner.go` (lines 308–317), in milliseconds:
1200ms base plus 300ms per exchanged passenger, capped at 4000ms. -/
def computeDwell (boardedN alightedN : Int) : Int :=
  let base : Int := 1200
  let per : Int := 300 * (boardedN + alightedN)
  let d := base + per
  if d > 4000 then 4000 else d

/-- `sim.StaticControl` (`runner.go` lines 20–42): fixed control values. -/
structure StaticControl where
  speedMult : ℚ
  arrivalMult : ℚ
  deriving DecidableEq

/-- `StaticControl.Speed`: nonpositive multipliers fall back to 1; values above
10 are capped at 10; everything else passes through. -/
def StaticControl.speed (s : StaticControl) : ℚ :=
  if s.speedMult ≤ 0 then 1
  else if s.speedMult > 10 then 10
  else s.speedMult

/-- `StaticControl.ArrivalFactor`: nonpositive multipliers fall back to 1;
values above 50 are capped at 50; everything else passes through. -/
def StaticControl.arrivalFactor (s : StaticControl) : ℚ :=
  if s.arrivalMult ≤ 0 then 1
  else if s.arrivalMult > 50 then 50
  else s.arrivalMult

/-- The speed branch of `Server.handleControl` (server file, line 63):
`if req.Speed != 0 { sp := req.Speed; if sp <= 0 { sp = 1 }; if sp < 0.1
{ sp = 0.1 }; if sp > 10.0 { sp = 10.0 }; c.speed.Store(sp) }`.
`cur` is the previously stored value, kept when the request is zero. -/
def controlSpeedUpdate (cur req : ℚ) : ℚ :=
  if req ≠ 0 then
    let sp := req
    let sp := if sp ≤ 0 then 1 else sp
    let sp := if sp < 1/10 then 1/10 else sp
    let sp := if sp > 10 then 10 else sp
    sp
  else cur

/-- The arrival-factor branch of `Server.handleControl` (server file, line 64),
with upper bound 50. -/
def controlArrivalUpdate (cur req : ℚ) : ℚ :=
  if req ≠ 0 then
    let af := req
    let af := if af ≤ 0 then 1 else af
    let af := if af < 1/10 then 1/10 else af
    let af := if af > 50 then 50 else af
    af
  else cur

/-- The headway computation of `makeSchedule` in `sim/runner.go`
(lines 253–295): average the group's speeds (falling back to 25 if the average
is nonpositive), trip time in minutes is `routeDistance / avgV * 60`, headway
is `trip / n` pushed into `[0.5, 15]`. -/
def headwayOf (routeDistance : ℚ) (speeds : List ℚ) : ℚ :=
  let n : ℚ := speeds.length
  let avgV := speeds.sum / n
  let avgV := if avgV ≤ 0 then 25 else avgV
  let tripMin := routeDistance / avgV * 60
  let h := tripMin / n
  let h := if h < 1/2 then 1/2 else h
  if h > 15 then 15 else h

/-- The per-bus launch offset of `makeSchedule`: `i*H` plus a jitter of
`(u*0.4 - 0.2)*H` for a `Float64` draw `u`, floored at 0 (minutes). -/
def launchOffset (h : ℚ) (i : ℕ) (u : ℚ) : ℚ :=
  let base := (i : ℚ) * h
  let jitter := (u * (4/10) - (2/10)) * h
  let off := base + jitter
  if off < 0 then 0 else off

/-- `makeSchedule` as a whole: the list of launch offsets of a direction
group, given the group's speeds and one `Float64` draw per bus. -/
def makeScheduleOffsets (routeDistance : ℚ) (speeds : List ℚ) (us : List ℚ) : List ℚ :=
  if speeds.isEmpty then []
  else
    let h := headwayOf routeDistance speeds
    (List.range speeds.length).map (fun i => launchOffset h i (us.getD i 0))

/-- The clamp function as the spec writes it: `clamp(x, lo, hi)`. -/
def specClamp (x lo hi : ℚ) : ℚ := max lo (min x hi)

/-- One capacity-relevant operation on a vehicle, as performed by both engines:
a boarding pass against some stop state, or an alighting pass. -/
inductive SimOp where
  | board (s : BusStop) (now : Int)
  | alight (now : Int)

/-- Apply one operation to a bus (the stop result of a boarding pass is
discarded: only the vehicle is tracked). -/
def applyOp (b : Bus) : SimOp → Bus
  | .board s now => (s.boardAtStop b now).2.1
  | .alight now => (b.alightPassengersAtCurrentStop now).1

/-- Apply a sequence of boarding/alighting operations. -/
def applyOps (b : Bus) (ops : List SimOp) : Bus :=
  ops.foldl applyOp b

/-- The onboard count (manifest length) is within the type capacity. -/
def busCapOK (b : Bus) : Bool :=
  match b.type with
  | none => true
  | some t => decide ((b.passengers.length : Int) ≤ t.capacity)

/-- Consistency of a vehicle state as established by the constructors in
`BuildFleetBuses` (empty manifest, onboard counter zero) and maintained by
every mutation in the source: the `PassengersOnboard` counter equals the
manifest length, and the manifest is within capacity. -/
def BusInv (b : Bus) : Prop :=
  b.passengersOnboard = (b.passengers.length : Int) ∧ busCapOK b = true

instance : DecidablePred BusInv := fun b => by
  unfold BusInv; infer_instance

/-- The queue of `s` matching the direction of `b` (selected by
`BoardAtStop`). -/
def selectedQueue (s : BusStop) (b : Bus) : List Passenger :=
  if b.direction == "inbound" then s.inboundQueue else s.outboundQueue

/-- Fixture: a small bus type of capacity 2. -/
def btEx : BusType := { id := 1, name := "Standard", capacity := 2, costPerKm := 7/4 }

/-- Fixture: an outbound passenger waiting at stop 3 for stop 5. -/
def pWaiting : Passenger :=
  { id := 1, routeID := 1, startStopID := 3, endStopID := 5, direction := "outbound",
    arrivalStopTime := 0, boardingTime := none, waitDuration := none,
    departureTime := none, arrivalDestTime := none }

/-- Fixture: a passenger that already boarded once (non-null boarding time). -/
def pBoarded : Passenger := { pWaiting with id := 2, boardingTime := some 1 }

/-- Fixture: an onboard passenger whose destination (99) never matches. -/
def pUnmatched : Passenger :=
  { pWaiting with id := 3, endStopID := 99, boardingTime := some 1 }

/-- Fixture: an onboard passenger whose destination is the current stop 3. -/
def pMatched : Passenger := { pWaiting with id := 4, endStopID := 3, boardingTime := some 1 }

/-- Fixture: an empty outbound bus of type `btEx` at stop 3. -/
def busEx : Bus :=
  { id := 1, type := some btEx, routeID := 1, currentStopID := 3, direction := "outbound",
    passengersOnboard := 0, isFull := false, averageSpeedKmph := 28,
    passengers := [], totalBoarded := 0, totalAlighted := 0 }

/-- Fixture: the same bus filled to capacity (remaining capacity 0). -/
def busFullEx : Bus :=
  { busEx with passengersOnboard := 2, passengers := [pMatched, pUnmatched], isFull := true }

/-- Fixture: a bus whose whole manifest alights at the current stop. -/
def busTermAll : Bus := { busEx with passengersOnboard := 1, passengers := [pMatched] }

/-- Fixture: a stop with two outbound queuers (one of them already boarded). -/
def stopEx : BusStop :=
  { id := 3, name := "Kimara", routeID := 1, latitude := 0, longitude := 0,
    distanceToNext := 1, cumulativeDist := 0,
    outboundQueue := [pWaiting, pBoarded], inboundQueue := [],
    totalArrivals := 2, totalBoarded := 0, totalDepartures := 0, allowLayover := false }

/-- Fixture: an inbound passenger with an already-set arrival time. -/
def pInbound : Passenger :=
  { id := 5, routeID := 1, startStopID := 7, endStopID := 2, direction := "inbound",
    arrivalStopTime := 11, boardingTime := none, waitDuration := none,
    departureTime := none, arrivalDestTime := none }

theorem remainingCapacity_nonneg (b : Bus) : 0 ≤ b.remainingCapacity := by
  unfold Bus.remainingCapacity
  cases b.type with
  | none => simp
  | some t =>
      simp only
      split <;> omega

/-- The boarded passengers of one scan are exactly the first `r` eligible
queue members, in order, each marked boarded. -/
theorem boardScan_snd (rid : Int) (dir : String) (sid now : Int) (q : List Passenger) (r : Int) :
    (boardScan rid dir sid now q r).2 =
      ((q.filter (fun p => eligibleFor rid dir sid p)).take r.toNat).map
        (fun p => p.markBoarded now) := by
  induction q generalizing r with
  | nil => simp [boardScan]
  | cons p rest ih =>
      by_cases hr : r ≤ 0
      · have h0 : r.toNat = 0 := by omega
        simp [boardScan, hr, ih, h0]
      · cases he : eligibleFor rid dir sid p with
        | true =>
            have ht : r.toNat = (r - 1).toNat + 1 := by omega
            rw [ht, List.filter_cons_of_pos, List.take_succ_cons, List.map_cons]
            · simp [boardScan, hr, he, ih]
            · exact he
        | false => simp [boardScan, hr, he, ih]

/-- Passengers not boarded keep their relative order: the retained queue is a
sublist of the original. -/
theorem boardScan_fst_sublist (rid : Int) (dir : String) (sid now : Int)
    (q : List Passenger) (r : Int) :
    List.Sublist (boardScan rid dir sid now q r).1 q := by
  induction q generalizing r with
  | nil => simp [boardScan]
  | cons p rest ih =>
      by_cases hr : r ≤ 0
      · simpa [boardScan, hr] using (ih r).cons₂ p
      · cases he : eligibleFor rid dir sid p with
        | true => simpa [boardScan, hr, he] using (ih (r - 1)).cons p
        | false => simpa [boardScan, hr, he] using (ih r).cons₂ p

/-- Every queue member is either retained or boarded: the two output lengths
add up to the input length. -/
theorem boardScan_length (rid : Int) (dir : String) (sid now : Int)
    (q : List Passenger) (r : Int) :
    (boardScan rid dir sid now q r).1.length + (boardScan rid dir sid now q r).2.length =
      q.length := by
  induction q generalizing r with
  | nil => simp [boardScan]
  | cons p rest ih =>
      by_cases hr : r ≤ 0
      · have := ih r
        simp [boardScan, hr]
        omega
      · cases he : eligibleFor rid dir sid p with
        | true =>
            have := ih (r - 1)
            simp [boardScan, hr, he]
            omega
        | false =>
            have := ih r
            simp [boardScan, hr, he]
            omega

/-- A queue member that has already boarded (non-null boarding time) is never
taken by a scan: it stays in the retained queue. -/
theorem boardScan_keeps_boarded (rid : Int) (dir : String) (sid now : Int)
    (q : List Passenger) (r : Int) (p : Passenger) (hp : p ∈ q)
    (hb : p.boardingTime ≠ none) :
    p ∈ (boardScan rid dir sid now q r).1 := by
  induction q generalizing r with
  | nil => cases hp
  | cons p0 rest ih =>
      by_cases hr : r ≤ 0
      · simp only [boardScan, if_pos hr, List.mem_cons]
        rcases List.mem_cons.mp hp with h | h
        · exact Or.inl h
        · exact Or.inr (ih r h)
      · cases he : eligibleFor rid dir sid p0 with
        | true =>
            have h1 : p0.boardingTime = none := by
              have he' := he
              simp only [eligibleFor, Bool.and_eq_true, beq_iff_eq] at he'
              exact he'.1.2
            have hne : p ≠ p0 := fun hpp => hb (by rw [hpp, h1])
            simp only [boardScan, if_neg hr, he, if_true]
            rcases List.mem_cons.mp hp with h | h
            · exact absurd h hne
            · exact ih (r - 1) h
        | false =>
            simp only [boardScan, if_neg hr, he, Bool.false_eq_true, if_false, List.mem_cons]
            rcases List.mem_cons.mp hp with h | h
            · exact Or.inl h
            · exact Or.inr (ih r h)

/-- The retained part of an alighting pass: passengers that do not alight. -/
theorem alightScan_fst (cur now : Int) (l : List Passenger) :
    (alightScan cur now l).1 =
      l.filter (fun p => !(p.endStopID == cur && p.isOnboard)) := by
  induction l with
  | nil => simp [alightScan]
  | cons p rest ih =>
      cases hc : (p.endStopID == cur && p.isOnboard) with
      | true =>
          have h1 := (Bool.and_eq_true _ _).mp hc
          simp [alightScan, hc, h1.1, h1.2, ih]
      | false =>
          have h' : (!(p.endStopID == cur)) = true ∨ (!p.isOnboard) = true := by
            rcases Bool.and_eq_false_iff.mp hc with h | h <;> simp [h]
          rcases h' with h | h <;> simp [alightScan, hc, h, ih]

/-- The alighted part of an alighting pass: matching onboard passengers, in
manifest order, each marked arrived. -/
theorem alightScan_snd (cur now : Int) (l : List Passenger) :
    (alightScan cur now l).2 =
      (l.filter (fun p => p.endStopID == cur && p.isOnboard)).map
        (fun p => p.markArrived now) := by
  induction l with
  | nil => simp [alightScan]
  | cons p rest ih =>
      cases hc : (p.endStopID == cur && p.isOnboard) with
      | true =>
          have h1 := (Bool.and_eq_true _ _).mp hc
          simp [alightScan, hc, h1.1, h1.2, ih]
      | false => simp [alightScan, hc, ih]

/-- After any alighting pass the manifest is the original one filtered to the
passengers that did not match (order preserved). -/
theorem alight_passengers_eq (b : Bus) (now : Int) :
    (b.alightPassengersAtCurrentStop now).1.passengers =
      b.passengers.filter (fun p => !(p.endStopID == b.currentStopID && p.isOnboard)) := by
  unfold Bus.alightPassengersAtCurrentStop
  by_cases h : b.passengers.isEmpty
  · rw [if_pos h]
    rw [List.isEmpty_iff] at h
    simp [h]
  · rw [if_neg h]
    simpa using alightScan_fst b.currentStopID now b.passengers

/-- The alighted list of any alighting pass: the matching onboard passengers,
marked arrived. -/
theorem alight_alighted_eq (b : Bus) (now : Int) :
    (b.alightPassengersAtCurrentStop now).2 =
      (b.passengers.filter (fun p => p.endStopID == b.currentStopID && p.isOnboard)).map
        (fun p => p.markArrived now) := by
  unfold Bus.alightPassengersAtCurrentStop
  by_cases h : b.passengers.isEmpty
  · rw [if_pos h]
    rw [List.isEmpty_iff] at h
    simp [h]
  · rw [if_neg h]
    simpa using alightScan_snd b.currentStopID now b.passengers

theorem boardAtStop_of_empty (s : BusStop) (b : Bus) (now : Int)
    (h : selectedQueue s b = []) : s.boardAtStop b now = (s, b, []) := by
  by_cases hd : b.direction = "inbound" <;>
    simp [selectedQueue, hd] at h <;>
    simp [BusStop.boardAtStop, hd, h]

theorem boardAtStop_of_full (s : BusStop) (b : Bus) (now : Int)
    (h : b.remainingCapacity ≤ 0) (hq : selectedQueue s b ≠ []) :
    s.boardAtStop b now =
      (s, { b with isFull := if busFull b.type b.passengersOnboard then true else b.isFull },
        []) := by
  by_cases hd : b.direction = "inbound" <;>
    simp [selectedQueue, hd] at hq <;>
    simp [BusStop.boardAtStop, hd, h, hq, List.isEmpty_iff]

theorem boardAtStop_main_boarded (s : BusStop) (b : Bus) (now : Int)
    (h : 0 < b.remainingCapacity) (hq : selectedQueue s b ≠ []) :
    (s.boardAtStop b now).2.2 =
      (boardScan b.routeID b.direction s.id now (selectedQueue s b) b.remainingCapacity).2 := by
  have h' : ¬ b.remainingCapacity ≤ 0 := not_le.mpr h
  by_cases hd : b.direction = "inbound" <;>
    simp [selectedQueue, hd] at hq <;>
    simp [BusStop.boardAtStop, selectedQueue, hd, h', hq, List.isEmpty_iff]

theorem boardAtStop_main_bus (s : BusStop) (b : Bus) (now : Int)
    (h : 0 < b.remainingCapacity) (hq : selectedQueue s b ≠ []) :
    (s.boardAtStop b now).2.1 =
      { b with
          passengers := b.passengers ++
            (boardScan b.routeID b.direction s.id now (selectedQueue s b)
              b.remainingCapacity).2,
          totalBoarded := b.totalBoarded +
            ((boardScan b.routeID b.direction s.id now (selectedQueue s b)
              b.remainingCapacity).2).length,
          passengersOnboard := ((b.passengers ++
            (boardScan b.routeID b.direction s.id now (selectedQueue s b)
              b.remainingCapacity).2).length : Int),
          isFull := busFull b.type ((b.passengers ++
            (boardScan b.routeID b.direction s.id now (selectedQueue s b)
              b.remainingCapacity).2).length : Int) } := by
  have h' : ¬ b.remainingCapacity ≤ 0 := not_le.mpr h
  by_cases hd : b.direction = "inbound" <;>
    simp [selectedQueue, hd] at hq <;>
    simp [BusStop.boardAtStop, selectedQueue, hd, h', hq, List.isEmpty_iff]

theorem boardAtStop_main_selected (s : BusStop) (b : Bus) (now : Int)
    (h : 0 < b.remainingCapacity) (hq : selectedQueue s b ≠ []) :
    selectedQueue (s.boardAtStop b now).1 b =
      (boardScan b.routeID b.direction s.id now (selectedQueue s b) b.remainingCapacity).1 := by
  have h' : ¬ b.remainingCapacity ≤ 0 := not_le.mpr h
  by_cases hd : b.direction = "inbound" <;>
    simp [selectedQueue, hd] at hq <;>
    simp [BusStop.boardAtStop, selectedQueue, hd, h', hq, List.isEmpty_iff]

theorem boardAtStop_main_other (s : BusStop) (b : Bus) (now : Int)
    (h : 0 < b.remainingCapacity) (hq : selectedQueue s b ≠ []) :
    (if b.direction == "inbound" then (s.boardAtStop b now).1.outboundQueue = s.outboundQueue
     else (s.boardAtStop b now).1.inboundQueue = s.inboundQueue) := by
  have h' : ¬ b.remainingCapacity ≤ 0 := not_le.mpr h
  by_cases hd : b.direction = "inbound" <;>
    simp [selectedQueue, hd] at hq <;>
    simp [BusStop.boardAtStop, selectedQueue, hd, h', hq, List.isEmpty_iff]

theorem busCapOK_none (b : Bus) (h : b.type = none) : busCapOK b = true := by
  unfold busCapOK
  rw [h]

theorem busCapOK_some (b : Bus) (t : BusType) (h : b.type = some t) :
    busCapOK b = decide ((b.passengers.length : Int) ≤ t.capacity) := by
  unfold busCapOK
  rw [h]

theorem remainingCapacity_cases (b : Bus) (t : BusType) (ht : b.type = some t) :
    b.remainingCapacity = 0 ∨ b.remainingCapacity = t.capacity - b.passengersOnboard := by
  unfold Bus.remainingCapacity
  rw [ht]
  simp only
  split
  · exact Or.inl rfl
  · exact Or.inr rfl

theorem boardScan_snd_length (rid : Int) (dir : String) (sid now : Int)
    (q : List Passenger) (r : Int) :
    (boardScan rid dir sid now q r).2.length ≤ r.toNat := by
  rw [boardScan_snd]
  simp only [List.length_map, List.length_take]
  exact min_le_left _ _

/-- A boarding pass keeps the vehicle state consistent and within capacity. -/
theorem boardAtStop_busInv (s : BusStop) (b : Bus) (now : Int) (h : BusInv b) :
    BusInv (s.boardAtStop b now).2.1 := by
  obtain ⟨h1, h2⟩ := h
  by_cases hq : selectedQueue s b = []
  · rw [boardAtStop_of_empty s b now hq]
    exact ⟨h1, h2⟩
  · by_cases hc : b.remainingCapacity ≤ 0
    · rw [boardAtStop_of_full s b now hc hq]
      exact ⟨h1, h2⟩
    · have hlt := lt_of_not_le hc
      rw [boardAtStop_main_bus s b now hlt hq]
      refine ⟨rfl, ?_⟩
      cases ht : b.type with
      | none => exact busCapOK_none _ rfl
      | some t =>
          rw [busCapOK_some _ t rfl]
          have h2' : (b.passengers.length : Int) ≤ t.capacity := by
            rw [busCapOK_some b t ht] at h2
            exact of_decide_eq_true h2
          have hlen := boardScan_snd_length b.routeID b.direction s.id now
            (selectedQueue s b) b.remainingCapacity
          rcases remainingCapacity_cases b t ht with h0 | hcap
          · omega
          · rw [decide_eq_true_eq, List.length_append]
            omega

/-- An alighting pass keeps the vehicle state consistent and within capacity. -/
theorem alight_busInv (b : Bus) (now : Int) (h : BusInv b) :
    BusInv (b.alightPassengersAtCurrentStop now).1 := by
  obtain ⟨h1, h2⟩ := h
  unfold Bus.alightPassengersAtCurrentStop
  by_cases he : b.passengers.isEmpty
  · rw [if_pos he]
    exact ⟨h1, h2⟩
  · rw [if_neg he]
    refine ⟨rfl, ?_⟩
    cases ht : b.type with
    | none => exact busCapOK_none _ rfl
    | some t =>
        rw [busCapOK_some _ t rfl, decide_eq_true_eq]
        dsimp only
        have h2' : (b.passengers.length : Int) ≤ t.capacity := by
          rw [busCapOK_some b t ht] at h2
          exact of_decide_eq_true h2
        have hk : (alightScan b.currentStopID now b.passengers).1.length ≤
            b.passengers.length := by
          rw [alightScan_fst]
          exact List.length_filter_le _ _
        omega

theorem applyOp_busInv (b : Bus) (op : SimOp) (h : BusInv b) : BusInv (applyOp b op) := by
  cases op with
  | board s now => exact boardAtStop_busInv s b now h
  | alight now => exact alight_busInv b now h

theorem applyOps_busInv (b : Bus) (ops : List SimOp) (h : BusInv b) :
    BusInv (applyOps b ops) := by
  induction ops generalizing b with
  | nil => exact h
  | cons op rest ih => exact ih (applyOp b op) (applyOp_busInv b op h)

/-- A single boarding pass never removes more passengers from the selected
queue than the vehicle's remaining capacity at the start of the pass. -/
theorem board_removal_bound (s : BusStop) (b : Bus) (now : Int) :
    ((selectedQueue s b).length : Int) -
      ((selectedQueue (s.boardAtStop b now).1 b).length : Int) ≤ b.remainingCapacity := by
  by_cases hq : selectedQueue s b = []
  · rw [boardAtStop_of_empty s b now hq]
    dsimp only
    rw [hq]
    simpa using remainingCapacity_nonneg b
  · by_cases hc : b.remainingCapacity ≤ 0
    · rw [boardAtStop_of_full s b now hc hq]
      dsimp only
      simpa using remainingCapacity_nonneg b
    · have hlt := lt_of_not_le hc
      rw [boardAtStop_main_selected s b now hlt hq]
      have hL := boardScan_length b.routeID b.direction s.id now
        (selectedQueue s b) b.remainingCapacity
      have hlen := boardScan_snd_length b.routeID b.direction s.id now
        (selectedQueue s b) b.remainingCapacity
      omega

/-- C9: for every non-negative boarded count `b` and alighted count `a`, the
dwell time at a stop equals `min(1200ms + 300ms × (b + a), 4000ms)`. -/
theorem dwell_formula (b a : Int) (hb : 0 ≤ b) (ha : 0 ≤ a) :
    computeDwell b a = min (1200 + 300 * (b + a)) 4000 := by
  unfold computeDwell
  dsimp only
  split
  · omega
  · omega

/-- Witness for C9: the dwell formula at 3 boarded and 2 alighted. -/
theorem dwell_formula_witness : computeDwell 3 2 = min (1200 + 300 * (3 + 2)) 4000 :=
  dwell_formula 3 2 (by decide) (by decide)

/-- C10: with a non-empty passenger direction, `EnqueuePassenger` routes the
passenger by its own direction (anything other than `"inbound"` goes
outbound), ignoring the caller's `dir` argument, and stamps the arrival time
with the supplied clock only when it is zero. -/
theorem enqueue_passenger_direction (s : BusStop) (p : Passenger) (dir : String) (now : Int)
    (h : p.direction ≠ "") :
    (p.direction = "inbound" →
      s.enqueuePassenger p dir now =
        { s with totalArrivals := s.totalArrivals + 1,
                 inboundQueue := s.inboundQueue ++
                   [if p.arrivalStopTime = 0 then { p with arrivalStopTime := now } else p] }) ∧
    (p.direction ≠ "inbound" →
      s.enqueuePassenger p dir now =
        { s with totalArrivals := s.totalArrivals + 1,
                 outboundQueue := s.outboundQueue ++
                   [if p.arrivalStopTime = 0 then { p with arrivalStopTime := now } else p] }) ∧
    (p.arrivalStopTime ≠ 0 →
      (if p.arrivalStopTime = 0 then { p with arrivalStopTime := now } else p) = p) ∧
    (p.arrivalStopTime = 0 →
      (if p.arrivalStopTime = 0 then { p with arrivalStopTime := now } else p).arrivalStopTime
        = now) := by
  refine ⟨?_, ?_, fun hz => if_neg hz, fun hz => by simp [hz]⟩
  · intro hin
    by_cases hz : p.arrivalStopTime = 0 <;>
      simp [BusStop.enqueuePassenger, h, hin, hz]
  · intro hnin
    by_cases hz : p.arrivalStopTime = 0 <;>
      simp [BusStop.enqueuePassenger, h, hnin, hz]

/-- Witness for C10: enqueueing the inbound fixture passenger with a
contradictory caller direction lands it in the inbound queue and keeps its
already-set arrival time. -/
theorem enqueue_passenger_direction_witness :
    stopEx.enqueuePassenger pInbound "outbound" 42 =
      { stopEx with totalArrivals := stopEx.totalArrivals + 1,
                    inboundQueue := stopEx.inboundQueue ++
                      [if pInbound.arrivalStopTime = 0
                        then { pInbound with arrivalStopTime := 42 } else pInbound] } :=
  (enqueue_passenger_direction stopEx pInbound "outbound" 42 (by decide)).1 (by decide)

/-- C7 counterexample: `StaticControl` passes the out-of-range value 0.05
through unchanged, and `handleControl` maps a negative multiplier to 1, not to
the claimed minimum 0.1. -/
theorem control_clamp_counterexample :
    StaticControl.speed { speedMult := 1/20, arrivalMult := 1 } = 1/20 ∧
    ¬ (1/10 : ℚ) ≤ StaticControl.speed { speedMult := 1/20, arrivalMult := 1 } ∧
    controlSpeedUpdate 1 (-5) = 1 ∧ ((1 : ℚ) ≠ 1/10) := by
  refine ⟨?_, ?_, ?_, by norm_num⟩ <;> norm_num [StaticControl.speed, controlSpeedUpdate]

/-- C7 (amended): a nonzero control request is stored clamped into
`[0.1, 10]` (speed) resp. `[0.1, 50]` (arrival); a negative request is mapped
to 1 (not 0.1) and a zero request leaves the stored value unchanged;
`StaticControl` maps nonpositive multipliers to 1 and caps them above at
10 resp. 50, but does not raise small positive values to 0.1. -/
theorem control_clamp_amended (cur req : ℚ) (h : req ≠ 0) :
    (1/10 ≤ controlSpeedUpdate cur req ∧ controlSpeedUpdate cur req ≤ 10) ∧
    (1/10 ≤ controlArrivalUpdate cur req ∧ controlArrivalUpdate cur req ≤ 50) ∧
    (req < 0 → controlSpeedUpdate cur req = 1 ∧ controlArrivalUpdate cur req = 1) ∧
    controlSpeedUpdate cur 0 = cur ∧ controlArrivalUpdate cur 0 = cur ∧
    (∀ m : StaticControl, m.speedMult ≤ 0 → m.speed = 1) ∧
    (∀ m : StaticControl, m.speed ≤ 10) ∧
    (∀ m : StaticControl, m.arrivalMult ≤ 0 → m.arrivalFactor = 1) ∧
    (∀ m : StaticControl, m.arrivalFactor ≤ 50) := by
  refine ⟨?_, ?_, ?_, by simp [controlSpeedUpdate], by simp [controlArrivalUpdate],
    ?_, ?_, ?_, ?_⟩
  · unfold controlSpeedUpdate
    rw [if_pos h]
    dsimp only
    split_ifs <;> constructor <;> linarith
  · unfold controlArrivalUpdate
    rw [if_pos h]
    dsimp only
    split_ifs <;> constructor <;> linarith
  · intro hneg
    constructor
    · unfold controlSpeedUpdate
      rw [if_pos h]
      dsimp only
      split_ifs <;> linarith
    · unfold controlArrivalUpdate
      rw [if_pos h]
      dsimp only
      split_ifs <;> linarith
  · intro m hm
    unfold StaticControl.speed
    rw [if_pos hm]
  · intro m
    unfold StaticControl.speed
    split_ifs <;> linarith
  · intro m hm
    unfold StaticControl.arrivalFactor
    rw [if_pos hm]
  · intro m
    unfold StaticControl.arrivalFactor
    split_ifs <;> linarith

/-- Witness for C7 (amended): a nonzero request of 2 is stored as 2, inside
both ranges. -/
theorem control_clamp_amended_witness :
    (1/10 : ℚ) ≤ controlSpeedUpdate 1 2 ∧ controlSpeedUpdate 1 2 ≤ 10 :=
  (control_clamp_amended 1 2 (by norm_num)).1

/-- The two sequential range checks of `makeSchedule` compute the spec's
`clamp` whenever `lo ≤ hi`. -/
theorem seq_checks_eq_clamp (x lo hi : ℚ) (h : lo ≤ hi) :
    (if (if x < lo then lo else x) > hi then hi else (if x < lo then lo else x)) =
      specClamp x lo hi := by
  unfold specClamp
  rcases lt_or_le x lo with h1 | h1
  · rw [if_pos h1, if_neg (not_lt.mpr h), min_eq_left (le_trans h1.le h), max_eq_left h1.le]
  · rw [if_neg (not_lt.mpr h1)]
    rcases lt_or_le hi x with h2 | h2
    · rw [if_pos h2, min_eq_right h2.le, max_eq_right h]
    · rw [if_neg (not_lt.mpr h2), min_eq_left h2, max_eq_right h1]

/-- The headway is never below half a minute. -/
theorem headwayOf_ge_half (D : ℚ) (speeds : List ℚ) : 1/2 ≤ headwayOf D speeds := by
  unfold headwayOf
  dsimp only
  split_ifs <;> linarith

/-- C8: for a direction group with positive average speed, the launch headway
is `clamp((D / v̄ × 60) / n, 0.5, 15)` minutes, bus `i` launches at
`max(0, i×H + jitter)` with `jitter ∈ [-0.2H, +0.2H]`, and in the concrete
scenario (3 buses, 20 km, 25 km/h) the trip time is 48 minutes and the raw
headway 16 is clamped to 15. -/
theorem headway_launch_schedule (D : ℚ) (speeds : List ℚ) (i : ℕ) (u : ℚ)
    (hv : 0 < speeds.sum / (speeds.length : ℚ)) (hu0 : 0 ≤ u) (hu1 : u ≤ 1) :
    headwayOf D speeds =
      specClamp (D / (speeds.sum / (speeds.length : ℚ)) * 60 / (speeds.length : ℚ))
        (1/2) 15 ∧
    (∃ j : ℚ, launchOffset (headwayOf D speeds) i u =
        max 0 ((i : ℚ) * headwayOf D speeds + j) ∧
      -(2/10) * headwayOf D speeds ≤ j ∧ j ≤ (2/10) * headwayOf D speeds) ∧
    ((20 : ℚ) / 25 * 60 = 48) ∧ headwayOf 20 [25, 25, 25] = 15 ∧ ((48 : ℚ) / 3 = 16) := by
  have hH := headwayOf_ge_half D speeds
  refine ⟨?_, ?_, by norm_num, ?_, by norm_num⟩
  · unfold headwayOf
    dsimp only
    rw [if_neg (not_le.mpr hv)]
    exact seq_checks_eq_clamp _ _ _ (by norm_num)
  · refine ⟨(u * (4/10) - (2/10)) * headwayOf D speeds, ?_, ?_, ?_⟩
    · unfold launchOffset
      dsimp only
      rcases lt_or_le ((i : ℚ) * headwayOf D speeds +
          (u * (4/10) - (2/10)) * headwayOf D speeds) 0 with hz | hz
      · rw [if_pos hz, eq_comm, max_eq_left hz.le]
      · rw [if_neg (not_lt.mpr hz), eq_comm, max_eq_right hz]
    · have hc : -(2/10) ≤ u * (4/10) - (2/10) := by linarith
      exact mul_le_mul_of_nonneg_right hc (by linarith)
    · have hc : u * (4/10) - (2/10) ≤ 2/10 := by linarith
      exact mul_le_mul_of_nonneg_right hc (by linarith)
  · norm_num [headwayOf, List.sum_cons, List.sum_nil]

/-- Witness for C8: the schedule theorem at the concrete scenario (3 buses of
speed 25 km/h, 20 km route, draw 1/2). -/
theorem headway_launch_schedule_witness : headwayOf 20 [25, 25, 25] = 15 :=
  (headway_launch_schedule 20 [25, 25, 25] 0 (1/2) (by norm_num) (by norm_num)
    (by norm_num)).2.2.2.1

/-- C1: starting from a consistent vehicle state, every sequence of boarding
and alighting operations keeps the manifest length within the type capacity;
and a single boarding pass never removes more passengers from the stop queue
than the vehicle's remaining capacity at the start of the pass. -/
theorem capacity_invariant_sequences (b : Bus) (ops : List SimOp) (h : BusInv b) :
    busCapOK (applyOps b ops) = true ∧
    ∀ (s : BusStop) (v : Bus) (now : Int),
      ((selectedQueue s v).length : Int) -
        ((selectedQueue (s.boardAtStop v now).1 v).length : Int) ≤ v.remainingCapacity :=
  ⟨(applyOps_busInv b ops h).2, fun s v now => board_removal_bound s v now⟩

/-- Witness for C1: the capacity bound after a board-then-alight sequence on
the fixture bus. -/
theorem capacity_invariant_sequences_witness :
    busCapOK (applyOps busEx [SimOp.board stopEx 0, SimOp.alight 5]) = true :=
  (capacity_invariant_sequences busEx [SimOp.board stopEx 0, SimOp.alight 5] (by decide)).1

/-- C3 counterexample: at the terminus the code performs only the ordinary
destination-matching alighting pass, so a passenger whose destination never
matched (fixture `pUnmatched`, destination 99, bus at stop 3) stays on the
manifest — the manifest is not empty after the terminal alighting step. -/
theorem terminal_forced_alighting_counterexample :
    (terminalStep true busFullEx 0).1.passengers ≠ [] := by decide

/-- C3 (amended): the terminal alighting step removes exactly the onboard
passengers whose destination equals the terminal stop (marking them arrived),
keeps every other passenger on the manifest in order (no passenger is
re-injected into any stop queue — the step does not touch stop state at all),
advances the clock by the fixed 3-second terminal dwell and flips the
direction; the manifest is empty afterwards when every onboard passenger's
destination matched. -/
theorem terminal_step_amended (forward : Bool) (b : Bus) (now : Int) :
    (terminalStep forward b now).1.passengers =
      b.passengers.filter (fun p => !(p.endStopID == b.currentStopID && p.isOnboard)) ∧
    (terminalStep forward b now).2.1 =
      (b.passengers.filter (fun p => p.endStopID == b.currentStopID && p.isOnboard)).map
        (fun p => p.markArrived now) ∧
    (terminalStep forward b now).2.2 = now + 3000 ∧
    (terminalStep forward b now).1.direction = (if forward then "inbound" else "outbound") ∧
    ((∀ p ∈ b.passengers, (p.endStopID == b.currentStopID && p.isOnboard) = true) →
      (terminalStep forward b now).1.passengers = []) := by
  have h1 : (terminalStep forward b now).1.passengers =
      b.passengers.filter (fun p => !(p.endStopID == b.currentStopID && p.isOnboard)) :=
    alight_passengers_eq b now
  refine ⟨h1, alight_alighted_eq b now, rfl, rfl, ?_⟩
  intro hall
  rw [h1, List.filter_eq_nil_iff]
  intro p hp
  simp [hall p hp]

/-- Witness for C3 (amended): a manifest whose only passenger alights at the
terminal leaves the vehicle empty. -/
theorem terminal_step_amended_witness :
    (terminalStep true busTermAll 0).1.passengers = [] :=
  (terminal_step_amended true busTermAll 0).2.2.2.2 (by decide)

/-- C4: a boarding pass against a vehicle with zero remaining capacity leaves
the whole stop (both queues and all counters) unchanged, boards nobody, and
changes at most the vehicle's own `isFull` flag. -/
theorem board_full_no_mutation (s : BusStop) (b : Bus) (now : Int)
    (h : b.remainingCapacity = 0) :
    (s.boardAtStop b now).1 = s ∧ (s.boardAtStop b now).2.2 = [] ∧
    ((s.boardAtStop b now).2.1 = b ∨
      (s.boardAtStop b now).2.1 = { b with isFull := true }) := by
  by_cases hq : selectedQueue s b = []
  · rw [boardAtStop_of_empty s b now hq]
    exact ⟨rfl, rfl, Or.inl rfl⟩
  · rw [boardAtStop_of_full s b now (le_of_eq h) hq]
    refine ⟨rfl, rfl, ?_⟩
    cases hf : busFull b.type b.passengersOnboard
    · exact Or.inl (by simp [hf])
    · exact Or.inr (by simp [hf])

/-- Witness for C4: boarding against the full fixture bus leaves the fixture
stop unchanged. -/
theorem board_full_no_mutation_witness :
    (stopEx.boardAtStop busFullEx 0).1 = stopEx :=
  (board_full_no_mutation stopEx busFullEx 0 (by decide)).1

/-- C5: a boarding pass is a single FIFO scan: the boarded passengers are
exactly the first `remainingCapacity` eligible members of the selected queue,
in queue order, appended to the manifest in that order; the passengers not
boarded remain in the selected queue in their original relative order
(a sublist), nothing is lost, and the opposite-direction queue is not
touched. -/
theorem board_fifo_order (s : BusStop) (b : Bus) (now : Int) :
    (s.boardAtStop b now).2.2 =
      (((selectedQueue s b).filter (fun p => eligibleFor b.routeID b.direction s.id p)).take
        b.remainingCapacity.toNat).map (fun p => p.markBoarded now) ∧
    List.Sublist (selectedQueue (s.boardAtStop b now).1 b) (selectedQueue s b) ∧
    (selectedQueue (s.boardAtStop b now).1 b).length + ((s.boardAtStop b now).2.2).length =
      (selectedQueue s b).length ∧
    (if b.direction == "inbound" then (s.boardAtStop b now).1.outboundQueue = s.outboundQueue
     else (s.boardAtStop b now).1.inboundQueue = s.inboundQueue) ∧
    (s.boardAtStop b now).2.1.passengers = b.passengers ++ (s.boardAtStop b now).2.2 := by
  by_cases hq : selectedQueue s b = []
  · rw [boardAtStop_of_empty s b now hq]
    dsimp only
    rw [hq]
    refine ⟨by simp, by simp, by simp, ?_, by simp⟩
    cases hb : (b.direction == "inbound") <;> simp [hb]
  · by_cases hc : b.remainingCapacity ≤ 0
    · have h0 : b.remainingCapacity.toNat = 0 := by
        have := remainingCapacity_nonneg b
        omega
      rw [boardAtStop_of_full s b now hc hq]
      dsimp only
      rw [h0]
      refine ⟨by simp, List.Sublist.refl _, by simp, ?_, by simp⟩
      cases hb : (b.direction == "inbound") <;> simp [hb]
    · have hlt := lt_of_not_le hc
      have hbd := boardAtStop_main_boarded s b now hlt hq
      have hsel := boardAtStop_main_selected s b now hlt hq
      have hoth := boardAtStop_main_other s b now hlt hq
      have hbus := boardAtStop_main_bus s b now hlt hq
      refine ⟨?_, ?_, ?_, hoth, ?_⟩
      · rw [hbd, boardScan_snd]
      · rw [hsel]
        exact boardScan_fst_sublist _ _ _ _ _ _
      · rw [hsel, hbd]
        exact boardScan_length _ _ _ _ _ _
      · rw [hbd, hbus]

/-- C6: a boarding pass boards only passengers whose boarding time was null
(each leaves with it set to the pass's clock), and every queued passenger with
a non-null boarding time is skipped and left in the queue, so no passenger is
ever moved into a vehicle manifest twice. -/
theorem single_boarding_pass (s : BusStop) (b : Bus) (now : Int) :
    (∀ p ∈ (s.boardAtStop b now).2.2, ∃ q0, q0 ∈ selectedQueue s b ∧
        q0.boardingTime = none ∧ p = q0.markBoarded now) ∧
    (∀ q0 ∈ selectedQueue s b, q0.boardingTime ≠ none →
        q0 ∈ selectedQueue (s.boardAtStop b now).1 b) ∧
    (∀ (p : Passenger) (t : Int), (p.markBoarded t).boardingTime = some t) := by
  refine ⟨?_, ?_, fun p t => rfl⟩
  · intro p hp
    by_cases hq : selectedQueue s b = []
    · rw [boardAtStop_of_empty s b now hq] at hp
      simp at hp
    · by_cases hc : b.remainingCapacity ≤ 0
      · rw [boardAtStop_of_full s b now hc hq] at hp
        simp at hp
      · rw [boardAtStop_main_boarded s b now (lt_of_not_le hc) hq, boardScan_snd] at hp
        obtain ⟨q0, hq0, rfl⟩ := List.mem_map.mp hp
        have hq0f : q0 ∈ (selectedQueue s b).filter
            (fun p => eligibleFor b.routeID b.direction s.id p) :=
          List.take_subset _ _ hq0
        have hmem := List.mem_filter.mp hq0f
        refine ⟨q0, hmem.1, ?_, rfl⟩
        have he := hmem.2
        simp only [eligibleFor, Bool.and_eq_true, beq_iff_eq] at he
        exact he.1.2
  · intro q0 hq0 hbt
    by_cases hq : selectedQueue s b = []
    · exact absurd (hq ▸ hq0) (List.not_mem_nil q0)
    · by_cases hc : b.remainingCapacity ≤ 0
      · rw [boardAtStop_of_full s b now hc hq]
        dsimp only
        exact hq0
      · rw [boardAtStop_main_selected s b now (lt_of_not_le hc) hq]
        exact boardScan_keeps_boarded _ _ _ _ _ _ q0 hq0 hbt

/-- Witness for C6: the fixture passenger that already boarded once is still
in the queue after a boarding pass with free capacity. -/
theorem single_boarding_pass_witness :
    pBoarded ∈ selectedQueue (stopEx.boardAtStop busEx 7).1 busEx :=
  (single_boarding_pass stopEx busEx 7).2.1 pBoarded (by decide) (by decide)

end BRT
